import Mathlib

/-!
Shallow embedding of the irrigation-dashboard client logic.

Sources embedded here:
* `src/lib/types.ts` — the `Device`, `Reading`, `DeviceLatest` records.
* `src/hooks/useRealtimeDevices.ts` — the realtime `postgres_changes`
  payload handler (`applyChange`) operating on the readings cache
  (`Map<string, Reading>`, modelled as a function `String → Option Reading`),
  and the `devices` join (`snapshot`).
* `src/App.tsx` — `fetchLatest`: builds the per-device latest map by a
  first-seen-wins fold over the readings returned by the backend (which
  orders them by `created_at` descending).
* `src/components/DeviceCard.tsx` — the staleness test and the
  `DeviceChartDialog` 3-hour-bucket averaging (`chartData`).
* `src/components/ExportCSVDialog.tsx` — `toUtcIso` and the CSV export
  query + serialization.

Timestamps (`created_at`) are modelled as `Int` milliseconds since the
epoch: the source keeps ISO strings and compares them through
`new Date(...)`, which reduces to comparison of the parsed millisecond
values.  Numeric sensor channels are modelled as `Option ℚ`.
-/

/-- One timestamped sample from one device (`Reading` in `src/lib/types.ts`).
The eight measurement channels are optional numerics. -/
structure Reading where
  id : Int
  device_id : String
  created_at : Int
  soil_1 : Option ℚ
  soil_2 : Option ℚ
  soil_3 : Option ℚ
  soil_4 : Option ℚ
  temp_1 : Option ℚ
  hum_1 : Option ℚ
  temp_2 : Option ℚ
  hum_2 : Option ℚ
  deriving DecidableEq

/-- One monitored device (`Device` in `src/lib/types.ts`). -/
structure Device where
  id : String
  esp_id : String
  name : String
  deriving DecidableEq

/-- A device paired with its latest reading, if any
(`DeviceLatest` in `src/lib/types.ts`). -/
structure DeviceLatest where
  id : String
  esp_id : String
  name : String
  latest : Option Reading
  deriving DecidableEq

/-- The readings cache `Map<string, Reading>` of `useRealtimeDevices.ts`,
modelled extensionally as a function from device id to the held reading. -/
abbrev ReadingsMap := String → Option Reading

/-- `Map.set`: replace the entry at one key, leave every other key alone. -/
def mapSet (m : ReadingsMap) (k : String) (v : Reading) : ReadingsMap :=
  fun q => if q = k then some v else m q

/-- The kind of a `postgres_changes` event. -/
inductive EventType
  | INSERT
  | UPDATE
  | DELETE
  deriving DecidableEq

/-- The realtime payload handler of `useRealtimeDevices.ts` (lines 99-122):
for INSERT and UPDATE, look up the reading currently held for the payload's
`device_id`; replace it when nothing is held or the incoming `created_at`
is strictly greater; DELETE events only copy the map. -/
def applyChange (ev : EventType) (newReading : Reading) (m : ReadingsMap) :
    ReadingsMap :=
  match ev with
  | .INSERT | .UPDATE =>
    match m newReading.device_id with
    | none => mapSet m newReading.device_id newReading
    | some existing =>
      if existing.created_at < newReading.created_at then
        mapSet m newReading.device_id newReading
      else m
  | .DELETE => m

/-- Apply a delivered sequence of change events in delivery order. -/
def applyEvents (evs : List (EventType × Reading)) (m : ReadingsMap) :
    ReadingsMap :=
  evs.foldl (fun acc p => applyChange p.1 p.2 acc) m

/-- The `devices` join of `useRealtimeDevices.ts` (lines 65-69): each known
device paired with the cache entry for its id (or `none`).  This is also the
final `devices.map` of `fetchLatest` in `src/App.tsx`. -/
def snapshot (devices : List Device) (m : ReadingsMap) : List DeviceLatest :=
  devices.map (fun d => ⟨d.id, d.esp_id, d.name, m d.id⟩)

/-- One step of the `latestById` fold in `fetchLatest` (`src/App.tsx`):
`if (!latestById.has(r.device_id)) latestById.set(r.device_id, r)`. -/
def latestStep (acc : ReadingsMap) (r : Reading) : ReadingsMap :=
  match acc r.device_id with
  | none => mapSet acc r.device_id r
  | some _ => acc

/-- The `latestById` map built by `fetchLatest` (`src/App.tsx` lines 31-34):
first-seen-wins fold over the readings batch, starting from the empty map. -/
def latestById (readings : List Reading) : ReadingsMap :=
  readings.foldl latestStep (fun _ => none)

/-- `fetchLatest` of `src/App.tsx`: build `latestById` from the readings
batch and join it with the device list. -/
def fetchLatest (devices : List Device) (readings : List Reading) :
    List DeviceLatest :=
  snapshot devices (latestById readings)

section ReconcilerLemmas

/-- A delete event reduces to the unchanged map, definitionally. -/
theorem applyChange_delete_aux (r : Reading) (m : ReadingsMap) :
    applyChange .DELETE r m = m := rfl

/-- Reading back the key just written. -/
theorem mapSet_same (m : ReadingsMap) (k : String) (v : Reading) :
    mapSet m k v k = some v := by simp [mapSet]

/-- Reading back any other key. -/
theorem mapSet_ne (m : ReadingsMap) (k : String) (v : Reading) (q : String)
    (h : q ≠ k) : mapSet m k v q = m q := by simp [mapSet, h]

/-- On an insert-or-update event, when nothing is held for the payload's
device id the handler stores the payload reading. -/
theorem applyChange_none (ev : EventType) (r : Reading) (m : ReadingsMap)
    (hev : ev = .INSERT ∨ ev = .UPDATE) (h : m r.device_id = none) :
    applyChange ev r m = mapSet m r.device_id r := by
  rcases hev with rfl | rfl <;> simp [applyChange, h]

/-- On an insert-or-update event, when the held reading is strictly older
the handler stores the payload reading. -/
theorem applyChange_newer (ev : EventType) (r : Reading) (m : ReadingsMap)
    (old : Reading) (hev : ev = .INSERT ∨ ev = .UPDATE)
    (h : m r.device_id = some old) (hlt : old.created_at < r.created_at) :
    applyChange ev r m = mapSet m r.device_id r := by
  rcases hev with rfl | rfl <;> simp [applyChange, h, hlt]

/-- On an insert-or-update event, when the held reading is not strictly
older the handler leaves the whole map unchanged. -/
theorem applyChange_not_newer (ev : EventType) (r : Reading)
    (m : ReadingsMap) (old : Reading) (hev : ev = .INSERT ∨ ev = .UPDATE)
    (h : m r.device_id = some old)
    (hlt : ¬ old.created_at < r.created_at) :
    applyChange ev r m = m := by
  rcases hev with rfl | rfl <;> simp [applyChange, h, hlt]

/-- Pointwise view of `applyChange` at a key other than the payload's
device id: the entry is untouched, for every event kind. -/
theorem applyChange_ne (ev : EventType) (r : Reading) (m : ReadingsMap)
    (d : String) (hd : d ≠ r.device_id) : applyChange ev r m d = m d := by
  cases ev with
  | DELETE => rfl
  | INSERT =>
      cases h : m r.device_id with
      | none =>
          rw [applyChange_none _ r m (Or.inl rfl) h, mapSet_ne _ _ _ d hd]
      | some old =>
          by_cases hlt : old.created_at < r.created_at
          · rw [applyChange_newer _ r m old (Or.inl rfl) h hlt,
              mapSet_ne _ _ _ d hd]
          · rw [applyChange_not_newer _ r m old (Or.inl rfl) h hlt]
  | UPDATE =>
      cases h : m r.device_id with
      | none =>
          rw [applyChange_none _ r m (Or.inr rfl) h, mapSet_ne _ _ _ d hd]
      | some old =>
          by_cases hlt : old.created_at < r.created_at
          · rw [applyChange_newer _ r m old (Or.inr rfl) h hlt,
              mapSet_ne _ _ _ d hd]
          · rw [applyChange_not_newer _ r m old (Or.inr rfl) h hlt]

/-- Per-step monotonicity for insert-or-update events, seen at the
payload's own device id. -/
theorem applyChange_mono_upsert (ev : EventType) (r : Reading)
    (m : ReadingsMap) (hev : ev = .INSERT ∨ ev = .UPDATE) (old : Reading)
    (hold : m r.device_id = some old) (nw : Reading)
    (hnew : applyChange ev r m r.device_id = some nw) :
    old.created_at ≤ nw.created_at := by
  by_cases hlt : old.created_at < r.created_at
  · rw [applyChange_newer ev r m old hev hold hlt, mapSet_same] at hnew
    injection hnew with hnw; subst hnw; exact le_of_lt hlt
  · rw [applyChange_not_newer ev r m old hev hold hlt, hold] at hnew
    injection hnew with hnw; subst hnw; exact le_refl _

/-- Per-step monotonicity: one event can only keep or raise the
`created_at` of the reading held for any device. -/
theorem applyChange_mono (ev : EventType) (r : Reading) (m : ReadingsMap)
    (d : String) (old : Reading) (hold : m d = some old) (nw : Reading)
    (hnew : applyChange ev r m d = some nw) :
    old.created_at ≤ nw.created_at := by
  cases ev with
  | DELETE =>
      rw [applyChange_delete_aux, hold] at hnew
      injection hnew with hnw; subst hnw; exact le_refl _
  | INSERT =>
      by_cases hd : d = r.device_id
      · subst hd
        exact applyChange_mono_upsert _ r m (Or.inl rfl) old hold nw hnew
      · rw [applyChange_ne _ r m d hd, hold] at hnew
        injection hnew with hnw; subst hnw; exact le_refl _
  | UPDATE =>
      by_cases hd : d = r.device_id
      · subst hd
        exact applyChange_mono_upsert _ r m (Or.inr rfl) old hold nw hnew
      · rw [applyChange_ne _ r m d hd, hold] at hnew
        injection hnew with hnw; subst hnw; exact le_refl _

/-- One event never removes a held entry. -/
theorem applyChange_some (ev : EventType) (r : Reading) (m : ReadingsMap)
    (d : String) (old : Reading) (hold : m d = some old) :
    ∃ nw, applyChange ev r m d = some nw := by
  cases ev with
  | DELETE => exact ⟨old, by rw [applyChange_delete_aux, hold]⟩
  | INSERT =>
      by_cases hd : d = r.device_id
      · subst hd
        by_cases hlt : old.created_at < r.created_at
        · refine ⟨r, ?_⟩
          rw [applyChange_newer _ r m old (Or.inl rfl) hold hlt, mapSet_same]
        · exact ⟨old, by
            rw [applyChange_not_newer _ r m old (Or.inl rfl) hold hlt, hold]⟩
      · exact ⟨old, by rw [applyChange_ne _ r m d hd, hold]⟩
  | UPDATE =>
      by_cases hd : d = r.device_id
      · subst hd
        by_cases hlt : old.created_at < r.created_at
        · refine ⟨r, ?_⟩
          rw [applyChange_newer _ r m old (Or.inr rfl) hold hlt, mapSet_same]
        · exact ⟨old, by
            rw [applyChange_not_newer _ r m old (Or.inr rfl) hold hlt, hold]⟩
      · exact ⟨old, by rw [applyChange_ne _ r m d hd, hold]⟩

/-- Monotonicity extends along any delivered event sequence. -/
theorem applyEvents_mono (evs : List (EventType × Reading)) (m : ReadingsMap)
    (d : String) (old : Reading) (hold : m d = some old) (nw : Reading)
    (hnew : applyEvents evs m d = some nw) :
    old.created_at ≤ nw.created_at := by
  induction evs generalizing m old with
  | nil =>
      simp only [applyEvents, List.foldl_nil] at hnew
      rw [hold] at hnew
      injection hnew with hnw; subst hnw; exact le_refl _
  | cons p t ih =>
      simp only [applyEvents, List.foldl_cons] at hnew
      obtain ⟨mid, hmid⟩ := applyChange_some p.1 p.2 m d old hold
      exact le_trans (applyChange_mono p.1 p.2 m d old hold mid hmid)
        (ih (applyChange p.1 p.2 m) mid hmid hnew)

end ReconcilerLemmas

/-- A reading with the given id, device id and timestamp, all channels
absent. -/
def mkReading (i : Int) (dev : String) (t : Int) : Reading :=
  ⟨i, dev, t, none, none, none, none, none, none, none, none⟩

/-- The empty readings cache. -/
def emptyMap : ReadingsMap := fun _ => none

/-- A concrete device used by the witnesses. -/
def devA : Device := ⟨"devA", "esp-A", "Zone 1"⟩

/-- A concrete reading for `devA` at time 100. -/
def r100 : Reading := mkReading 1 "devA" 100

/-- A concrete reading for `devA` at time 200. -/
def r200 : Reading := mkReading 2 "devA" 200

/-- A concrete reading for `devA` at time 100 with a different id than
`r100`. -/
def r100b : Reading := mkReading 5 "devA" 100

/-- A concrete reading whose device id matches no known device. -/
def rGhost : Reading := mkReading 9 "ghost" 500

/-- A cache holding `r100` for `devA`. -/
def mHold : ReadingsMap := mapSet emptyMap "devA" r100

/-- C1: on an insert-or-update event, apply_change replaces the
latest-reading entry for the event's device id if and only if no latest is
currently held for that device or the event reading's created_at is
strictly greater than the held one; an older event never changes the
mapping, and the per-device latest never regresses to an older created_at
regardless of arrival order. -/
theorem applyChange_replaces_iff_newer (ev : EventType) (r : Reading)
    (m : ReadingsMap) (hev : ev = .INSERT ∨ ev = .UPDATE) :
    ((m r.device_id = none ∨
        ∃ old, m r.device_id = some old ∧ old.created_at < r.created_at) →
      applyChange ev r m = mapSet m r.device_id r) ∧
    (∀ old, m r.device_id = some old → ¬ old.created_at < r.created_at →
      applyChange ev r m = m) ∧
    (∀ d old nw, m d = some old → applyChange ev r m d = some nw →
      old.created_at ≤ nw.created_at) ∧
    (∀ evs : List (EventType × Reading), ∀ d old nw, m d = some old →
      applyEvents evs m d = some nw → old.created_at ≤ nw.created_at) := by
  refine ⟨?_, ?_, ?_, ?_⟩
  · rintro (h | ⟨old, hold, hlt⟩)
    · exact applyChange_none ev r m hev h
    · exact applyChange_newer ev r m old hev hold hlt
  · intro old hold hlt
    exact applyChange_not_newer ev r m old hev hold hlt
  · intro d old nw hold hnew
    exact applyChange_mono ev r m d old hold nw hnew
  · intro evs d old nw hold hnew
    exact applyEvents_mono evs m d old hold nw hnew

/-- Witness for C1 at the concrete event `INSERT r200` against the cache
holding `r100`. -/
theorem applyChange_replaces_iff_newer_witness :
    (EventType.INSERT = EventType.INSERT ∨
      EventType.INSERT = EventType.UPDATE) ∧
    (((mHold r200.device_id = none ∨
        ∃ old, mHold r200.device_id = some old ∧
          old.created_at < r200.created_at) →
      applyChange .INSERT r200 mHold = mapSet mHold r200.device_id r200) ∧
    (∀ old, mHold r200.device_id = some old →
      ¬ old.created_at < r200.created_at →
      applyChange .INSERT r200 mHold = mHold) ∧
    (∀ d old nw, mHold d = some old →
      applyChange .INSERT r200 mHold d = some nw →
      old.created_at ≤ nw.created_at) ∧
    (∀ evs : List (EventType × Reading), ∀ d old nw, mHold d = some old →
      applyEvents evs mHold d = some nw →
      old.created_at ≤ nw.created_at)) :=
  ⟨Or.inl rfl,
    applyChange_replaces_iff_newer .INSERT r200 mHold (Or.inl rfl)⟩

/-- C10: an insert-or-update event whose created_at exactly ties the held
reading's created_at, even with a different reading id, leaves the mapping
unchanged: ties are resolved in favor of the currently held reading and
the reading id is never consulted. -/
theorem applyChange_tie_keeps_existing (ev : EventType) (r old : Reading)
    (m : ReadingsMap) (hev : ev = .INSERT ∨ ev = .UPDATE)
    (hold : m r.device_id = some old)
    (hts : old.created_at = r.created_at) (_hid : old.id ≠ r.id) :
    applyChange ev r m = m :=
  applyChange_not_newer ev r m old hev hold (by rw [hts]; exact lt_irrefl _)

/-- Witness for C10: the tied event `INSERT r100b` (same timestamp as
`r100`, different id) leaves the cache holding `r100` unchanged. -/
theorem applyChange_tie_keeps_existing_witness :
    (EventType.INSERT = EventType.INSERT ∨
      EventType.INSERT = EventType.UPDATE) ∧
    mHold r100b.device_id = some r100 ∧
    r100.created_at = r100b.created_at ∧ r100.id ≠ r100b.id ∧
    applyChange .INSERT r100b mHold = mHold :=
  ⟨Or.inl rfl, by decide, by decide, by decide,
    applyChange_tie_keeps_existing .INSERT r100b r100 mHold (Or.inl rfl)
      (by decide) (by decide) (by decide)⟩

/-- C4 counterexample: an INSERT event for an unknown device id does not
leave the latest-reading cache unchanged — the handler never consults the
device list and stores the reading under the unknown id. -/
theorem applyChange_unknown_device_changes_map_cex :
    rGhost.device_id ∉ ([devA].map Device.id) ∧
    applyChange .INSERT rGhost emptyMap ≠ emptyMap := by
  refine ⟨by decide, fun h => ?_⟩
  have h2 : applyChange .INSERT rGhost emptyMap "ghost" = emptyMap "ghost" :=
    congrFun h "ghost"
  exact absurd h2 (by decide)

/-- C4 amended: an insert-or-update event for an unknown device id may add
an entry to the internal readings cache, but the snapshot joined over the
known device list is unchanged, and no error is raised. -/
theorem snapshot_unknown_device_unchanged (devices : List Device)
    (ev : EventType) (r : Reading) (m : ReadingsMap)
    (h : r.device_id ∉ devices.map Device.id) :
    snapshot devices (applyChange ev r m) = snapshot devices m := by
  unfold snapshot
  apply List.map_congr_left
  intro d hd
  have hne : d.id ≠ r.device_id := by
    intro he
    exact h (he ▸ List.mem_map_of_mem Device.id hd)
  rw [applyChange_ne ev r m d.id hne]

/-- Witness for the amended C4 at the concrete unknown-device event. -/
theorem snapshot_unknown_device_unchanged_witness :
    rGhost.device_id ∉ ([devA].map Device.id) ∧
    snapshot [devA] (applyChange .INSERT rGhost emptyMap) =
      snapshot [devA] emptyMap :=
  ⟨by decide,
    snapshot_unknown_device_unchanged [devA] .INSERT rGhost emptyMap
      (by decide)⟩

/-- C2: apply_change is idempotent under duplicate delivery: for every
reconciler state and every change event, applying the same event twice in
succession yields exactly the same latest-reading mapping as applying it
once. -/
theorem applyChange_idempotent (ev : EventType) (r : Reading)
    (m : ReadingsMap) :
    applyChange ev r (applyChange ev r m) = applyChange ev r m := by
  cases ev
  case DELETE => rfl
  all_goals
    funext d
    cases h : m r.device_id with
    | none =>
        simp only [applyChange, h, mapSet, if_pos rfl]
        simp [mapSet, h, lt_irrefl]
    | some old =>
        by_cases hlt : old.created_at < r.created_at
        · simp only [applyChange, h, if_pos hlt, mapSet, if_pos rfl]
          simp [mapSet, h, hlt, lt_irrefl]
        · simp only [applyChange, h, if_neg hlt]

section InitLemmas

/-- A key already held survives the whole first-seen-wins fold. -/
theorem latestFold_some (l : List Reading) (acc : ReadingsMap) (i : String)
    (v : Reading) (h : acc i = some v) :
    (l.foldl latestStep acc) i = some v := by
  induction l generalizing acc with
  | nil => simpa using h
  | cons a t ih =>
      rw [List.foldl_cons]
      apply ih
      cases hh : acc a.device_id with
      | none =>
          simp only [latestStep, hh]
          have hne : i ≠ a.device_id := by
            intro he; rw [he, hh] at h; cases h
          rw [mapSet_ne _ _ _ i hne]; exact h
      | some w => simp only [latestStep, hh]; exact h

/-- On a key not yet held, the first-seen-wins fold returns the first
matching reading of the batch. -/
theorem latestFold_none (l : List Reading) (acc : ReadingsMap) (i : String)
    (h : acc i = none) :
    (l.foldl latestStep acc) i = l.find? (fun r => r.device_id == i) := by
  induction l generalizing acc with
  | nil => simpa using h
  | cons a t ih =>
      rw [List.foldl_cons]
      cases hh : acc a.device_id with
      | none =>
          by_cases hi : a.device_id = i
          · rw [List.find?_cons_of_pos _ (by simp [hi])]
            apply latestFold_some
            simp only [latestStep, hh]
            rw [show i = a.device_id from hi.symm, mapSet_same]
          · rw [List.find?_cons_of_neg _ (by simp [hi])]
            apply ih
            simp only [latestStep, hh]
            rw [mapSet_ne _ _ _ i (fun he => hi he.symm)]; exact h
      | some w =>
          have hi : a.device_id ≠ i := by
            intro he; rw [he, h] at hh; cases hh
          rw [List.find?_cons_of_neg _ (by simp [hi])]
          simp only [latestStep, hh]
          exact ih acc h

/-- `latestById` looks up the first reading of the batch with the given
device id. -/
theorem latestById_eq_find (l : List Reading) (i : String) :
    latestById l i = l.find? (fun r => r.device_id == i) :=
  latestFold_none l (fun _ => none) i rfl

/-- In a batch sorted by `created_at` descending, the first match has the
greatest `created_at` among all matches. -/
theorem find_desc_max (l : List Reading) (i : String)
    (hs : l.Sorted (fun a b => b.created_at ≤ a.created_at)) (r : Reading)
    (hf : l.find? (fun x => x.device_id == i) = some r) :
    ∀ x ∈ l, x.device_id = i → x.created_at ≤ r.created_at := by
  induction l with
  | nil => cases hf
  | cons a t ih =>
      rw [List.sorted_cons] at hs
      obtain ⟨ha, ht⟩ := hs
      by_cases hpa : a.device_id = i
      · rw [List.find?_cons_of_pos _ (by simp [hpa])] at hf
        injection hf with hra
        subst hra
        intro x hx _
        rcases List.mem_cons.mp hx with rfl | hx
        · exact le_refl _
        · exact ha x hx
      · rw [List.find?_cons_of_neg _ (by simp [hpa])] at hf
        intro x hx hxi
        rcases List.mem_cons.mp hx with rfl | hx
        · exact absurd hxi hpa
        · exact ih ht hf x hx hxi

end InitLemmas

/-- C3 counterexample: on a batch that is not ordered by `created_at`
descending, `fetchLatest` pairs the device with the first matching
reading, not a maximal one — `r200` matches `devA` and has strictly
greater `created_at` than the reading that is kept. -/
theorem fetchLatest_unsorted_cex :
    fetchLatest [devA] [r100, r200] =
      [⟨"devA", "esp-A", "Zone 1", some r100⟩] ∧
    r200 ∈ [r100, r200] ∧ r200.device_id = devA.id ∧
    r100.created_at < r200.created_at :=
  ⟨by decide, by decide, by decide, by decide⟩

/-- C3 amended: when the readings batch is ordered by `created_at`
descending (as the backend query delivers it), `fetchLatest` pairs each
device with a matching reading of maximal `created_at`, and reports every
device with no matching reading in the batch with a null latest. -/
theorem fetchLatest_sorted_max (devices : List Device)
    (readings : List Reading)
    (hsort : readings.Sorted (fun a b => b.created_at ≤ a.created_at)) :
    ∀ d ∈ devices, ∃ dl ∈ fetchLatest devices readings,
      dl.id = d.id ∧ dl.esp_id = d.esp_id ∧ dl.name = d.name ∧
      ((∀ x ∈ readings, x.device_id ≠ d.id) → dl.latest = none) ∧
      (∀ r, dl.latest = some r →
        r ∈ readings ∧ r.device_id = d.id ∧
        ∀ x ∈ readings, x.device_id = d.id →
          x.created_at ≤ r.created_at) ∧
      ((∃ x ∈ readings, x.device_id = d.id) → dl.latest ≠ none) := by
  intro d hd
  refine ⟨⟨d.id, d.esp_id, d.name, latestById readings d.id⟩,
    List.mem_map_of_mem _ hd, rfl, rfl, rfl, ?_, ?_, ?_⟩
  · intro hno
    show latestById readings d.id = none
    rw [latestById_eq_find]
    exact List.find?_eq_none.mpr (fun x hx => by simp [hno x hx])
  · intro r hr
    replace hr : latestById readings d.id = some r := hr
    rw [latestById_eq_find] at hr
    have hpr := List.find?_some hr
    refine ⟨List.mem_of_find?_eq_some hr, by simpa using hpr, ?_⟩
    exact find_desc_max readings d.id hsort r hr
  · rintro ⟨x, hx, hxi⟩ hnone
    replace hnone : latestById readings d.id = none := hnone
    rw [latestById_eq_find] at hnone
    have := List.find?_eq_none.mp hnone x hx
    simp [hxi] at this

/-- Witness for the amended C3 on a concrete descending batch. -/
theorem fetchLatest_sorted_max_witness :
    ([r200, r100].Sorted (fun a b => b.created_at ≤ a.created_at)) ∧
    (∀ d ∈ [devA], ∃ dl ∈ fetchLatest [devA] [r200, r100],
      dl.id = d.id ∧ dl.esp_id = d.esp_id ∧ dl.name = d.name ∧
      ((∀ x ∈ [r200, r100], x.device_id ≠ d.id) → dl.latest = none) ∧
      (∀ r, dl.latest = some r →
        r ∈ [r200, r100] ∧ r.device_id = d.id ∧
        ∀ x ∈ [r200, r100], x.device_id = d.id →
          x.created_at ≤ r.created_at) ∧
      ((∃ x ∈ [r200, r100], x.device_id = d.id) → dl.latest ≠ none)) :=
  ⟨by decide, fetchLatest_sorted_max [devA] [r200, r100] (by decide)⟩

/-- C5: processing a delete change event leaves the latest-reading mapping
entirely unchanged: deletion of the reading currently held as a device's
latest does not demote that device and is not reconciled to any prior
reading. -/
theorem applyChange_delete_noop (r : Reading) (m : ReadingsMap) :
    applyChange .DELETE r m = m := rfl

/-- The fixed freshness threshold of `DeviceCard.tsx` (line 16), in
milliseconds. -/
def FRESHNESS_MS : Int := 12500

/-- The staleness test of `DeviceCard.tsx`:
`const stale = ts ? Date.now() - ts.getTime() > 12500 : true`. -/
def stale (latest : Option Reading) (now : Int) : Bool :=
  match latest with
  | none => true
  | some r => decide (now - r.created_at > FRESHNESS_MS)

/-- C8: a device-latest view is classified stale if and only if no reading
exists or the age `now - latest.created_at` exceeds the fixed 12500 ms
freshness threshold; an age of threshold minus 1 ms is fresh and an age of
threshold plus 1 ms is stale. -/
theorem stale_iff_threshold :
    FRESHNESS_MS = 12500 ∧
    (∀ (latest : Option Reading) (now : Int),
      stale latest now = true ↔
        latest = none ∨
          ∃ r, latest = some r ∧ now - r.created_at > FRESHNESS_MS) ∧
    (∀ r : Reading,
      stale (some r) (r.created_at + (FRESHNESS_MS - 1)) = false) ∧
    (∀ r : Reading,
      stale (some r) (r.created_at + (FRESHNESS_MS + 1)) = true) := by
  refine ⟨rfl, ?_, ?_, ?_⟩
  · intro latest now
    cases latest with
    | none => simp [stale]
    | some r => simp [stale]
  · intro r
    simp only [stale, FRESHNESS_MS, decide_eq_false_iff_not]
    omega
  · intro r
    simp only [stale, FRESHNESS_MS, decide_eq_true_eq]
    omega

/-- Witness for C8 on a concrete reading and both boundary instants. -/
theorem stale_iff_threshold_witness :
    stale (some r100) (r100.created_at + (FRESHNESS_MS - 1)) = false ∧
    stale (some r100) (r100.created_at + (FRESHNESS_MS + 1)) = true :=
  ⟨stale_iff_threshold.2.2.1 r100, stale_iff_threshold.2.2.2 r100⟩

/-- The four soil-moisture channels of a reading, in source order
(`DeviceCard.tsx` line 236). -/
def soilChannels (r : Reading) : List (Option ℚ) :=
  [r.soil_1, r.soil_2, r.soil_3, r.soil_4]

/-- The two temperature channels (`DeviceCard.tsx` line 243). -/
def tempChannels (r : Reading) : List (Option ℚ) :=
  [r.temp_1, r.temp_2]

/-- The two humidity channels (`DeviceCard.tsx` line 250). -/
def humChannels (r : Reading) : List (Option ℚ) :=
  [r.hum_1, r.hum_2]

/-- The `flatMap` + non-null `filter` of the chartData averaging: every
present value of the family's channels across the bucket's readings. -/
def presentValues (chans : Reading → List (Option ℚ))
    (bucket : List Reading) : List ℚ :=
  (bucket.flatMap chans).filterMap id

/-- JS `Math.round`: round to the nearest integer, halves toward
positive infinity. -/
def jsRound (q : ℚ) : Int := ⌊q + 1 / 2⌋

/-- One family average of the chartData computation
(`Math.round((sum / length) * 10) / 10` over the present values, absent
when no value is present). -/
def familyAvg (chans : Reading → List (Option ℚ))
    (bucket : List Reading) : Option ℚ :=
  let vals := presentValues chans bucket
  if 0 < vals.length then
    some ((jsRound ((vals.sum / (vals.length : ℚ)) * 10) : ℚ) / 10)
  else none

/-- `avgSoilMoisture` of `DeviceCard.tsx` (lines 236-240). -/
def avgSoilMoisture (bucket : List Reading) : Option ℚ :=
  familyAvg soilChannels bucket

/-- `avgTemperature` of `DeviceCard.tsx` (lines 243-247). -/
def avgTemperature (bucket : List Reading) : Option ℚ :=
  familyAvg tempChannels bucket

/-- `avgHumidity` of `DeviceCard.tsx` (lines 250-254). -/
def avgHumidity (bucket : List Reading) : Option ℚ :=
  familyAvg humChannels bucket

/-- Arithmetic mean, stated from the spec's words. -/
def mean (l : List ℚ) : ℚ := l.sum / (l.length : ℚ)

/-- Rounding to one decimal place, stated from the spec's words with the
source's half-up rounding. -/
def roundTo1 (q : ℚ) : ℚ := (jsRound (q * 10) : ℚ) / 10

/-- No value is present exactly when every channel of every reading in the
bucket is absent. -/
theorem presentValues_eq_nil_iff (chans : Reading → List (Option ℚ))
    (bucket : List Reading) :
    presentValues chans bucket = [] ↔
      ∀ r ∈ bucket, ∀ o ∈ chans r, o = none := by
  rw [presentValues, List.filterMap_eq_nil_iff]
  constructor
  · intro h r hr o ho
    exact h o (List.mem_flatMap.mpr ⟨r, hr, ho⟩)
  · intro h o ho
    obtain ⟨r, hr, hor⟩ := List.mem_flatMap.mp ho
    exact h r hr o hor

/-- The family average, rephrased through `mean` and `roundTo1`. -/
theorem familyAvg_eq (chans : Reading → List (Option ℚ))
    (bucket : List Reading) :
    familyAvg chans bucket =
      if presentValues chans bucket = [] then none
      else some (roundTo1 (mean (presentValues chans bucket))) := by
  unfold familyAvg roundTo1 mean
  by_cases h : presentValues chans bucket = []
  · simp [h]
  · have hl : 0 < (presentValues chans bucket).length :=
      List.length_pos.mpr h
    simp [h, hl]

/-- Absence characterization of the family average. -/
theorem familyAvg_none_iff (chans : Reading → List (Option ℚ))
    (bucket : List Reading) :
    familyAvg chans bucket = none ↔
      ∀ r ∈ bucket, ∀ o ∈ chans r, o = none := by
  rw [familyAvg_eq, ← presentValues_eq_nil_iff]
  by_cases h : presentValues chans bucket = [] <;> simp [h]

/-- A reading whose only present soil values are 70 and 80. -/
def rSoil7080 : Reading :=
  ⟨7, "devA", 0, some 70, some 80, none, none, none, none, none, none⟩

/-- The concrete 70/80 bucket evaluates to the family average 75.0. -/
theorem avgSoil_concrete : avgSoilMoisture [rSoil7080] = some 75 := by
  have h1 : presentValues soilChannels [rSoil7080] = [(70 : ℚ), 80] := rfl
  show familyAvg soilChannels [rSoil7080] = some 75
  rw [familyAvg_eq, h1, if_neg (by simp)]
  have hm : mean [(70 : ℚ), 80] = 75 := by
    norm_num [mean, List.sum_cons, List.sum_nil]
  have hr : jsRound ((75 : ℚ) * 10) = 750 := by
    unfold jsRound
    rw [Int.floor_eq_iff]
    norm_num
  rw [hm, roundTo1, hr]
  norm_num

/-- C6: each of the three channel-family averages equals the arithmetic
mean of the non-absent values of that family's channels across the
bucket's readings, rounded to one decimal place, and is absent (not zero)
exactly when every contributing channel value across every reading in the
bucket is absent; a bucket whose only present family values are 70 and 80
has family average 75.0. -/
theorem chart_family_averages :
    (∀ bucket : List Reading,
      (avgSoilMoisture bucket = none ↔
        ∀ r ∈ bucket, ∀ o ∈ soilChannels r, o = none) ∧
      (avgTemperature bucket = none ↔
        ∀ r ∈ bucket, ∀ o ∈ tempChannels r, o = none) ∧
      (avgHumidity bucket = none ↔
        ∀ r ∈ bucket, ∀ o ∈ humChannels r, o = none) ∧
      avgSoilMoisture bucket =
        (if presentValues soilChannels bucket = [] then none
         else some (roundTo1 (mean (presentValues soilChannels bucket)))) ∧
      avgTemperature bucket =
        (if presentValues tempChannels bucket = [] then none
         else some (roundTo1 (mean (presentValues tempChannels bucket)))) ∧
      avgHumidity bucket =
        (if presentValues humChannels bucket = [] then none
         else some (roundTo1 (mean (presentValues humChannels bucket))))) ∧
    avgSoilMoisture [rSoil7080] = some 75 := by
  constructor
  · intro bucket
    exact ⟨familyAvg_none_iff soilChannels bucket,
      familyAvg_none_iff tempChannels bucket,
      familyAvg_none_iff humChannels bucket,
      familyAvg_eq soilChannels bucket,
      familyAvg_eq tempChannels bucket,
      familyAvg_eq humChannels bucket⟩
  · exact avgSoil_concrete

/-- Witness for C6: the concrete 70/80 bucket evaluates to 75.0, via the
claim theorem. -/
theorem chart_family_averages_witness :
    avgSoilMoisture [rSoil7080] = some 75 :=
  chart_family_averages.2

/-- Width of one chart bucket: 3 hours in milliseconds. -/
def BUCKET_MS : Int := 10800000

/-- The bucket key of `chartData` (`DeviceCard.tsx` lines 217-221): the
reading's instant rounded down to the nearest 3-hour boundary of the local
clock, for a local clock running at UTC offset `off` milliseconds. -/
def bucketStart (off t : Int) : Int :=
  (t + off) - (t + off) % BUCKET_MS - off

/-- Insertion into `groupedData`: append the reading to its bucket's list,
creating the bucket at the end on first sight (JS `Map` iteration follows
insertion order). -/
def insertGroup (key : Int) (r : Reading) :
    List (Int × List Reading) → List (Int × List Reading)
  | [] => [(key, [r])]
  | (k, rs) :: t =>
    if k = key then (k, rs ++ [r]) :: t else (k, rs) :: insertGroup key r t

/-- The `groupedData` map of `chartData`, as an insertion-ordered
association list from bucket start to the bucket's readings. -/
def groupByBucket (off : Int) (readings : List Reading) :
    List (Int × List Reading) :=
  readings.foldl (fun acc r => insertGroup (bucketStart off r.created_at) r acc) []

/-- One output point of `chartData` (`ChartDataPoint` of `DeviceCard.tsx`,
with `datetime` as the bucket start instant). -/
structure ChartDataPoint where
  datetime : Int
  avgSoilMoisture : Option ℚ
  avgTemperature : Option ℚ
  avgHumidity : Option ℚ
  deriving DecidableEq

/-- Build the point for one bucket (`DeviceCard.tsx` lines 232-263). -/
def mkPoint (k : Int) (rs : List Reading) : ChartDataPoint :=
  ⟨k, avgSoilMoisture rs, avgTemperature rs, avgHumidity rs⟩

/-- Order on chart points by bucket start, the comparator of the final
`result.sort((a, b) => a.datetime.getTime() - b.datetime.getTime())`. -/
abbrev ptLE (a b : ChartDataPoint) : Prop := a.datetime ≤ b.datetime

instance : DecidableRel ptLE :=
  fun a b => inferInstanceAs (Decidable (a.datetime ≤ b.datetime))

instance : IsTotal ChartDataPoint ptLE :=
  ⟨fun a b => Int.le_total a.datetime b.datetime⟩

instance : IsTrans ChartDataPoint ptLE :=
  ⟨fun _ _ _ h1 h2 => le_trans h1 h2⟩

/-- `chartData` of `DeviceCard.tsx` (lines 212-267): group the readings
into 3-hour buckets, average each bucket, and sort the points ascending by
bucket start. -/
def chartData (off : Int) (readings : List Reading) : List ChartDataPoint :=
  ((groupByBucket off readings).map (fun p => mkPoint p.1 p.2)).insertionSort
    ptLE

/-- C7: the bucketed aggregator's output sequence is ordered ascending by
bucket start time, and the empty input set yields the empty output
sequence rather than an error. -/
theorem chartData_sorted_and_empty :
    (∀ (off : Int) (readings : List Reading),
      (chartData off readings).Sorted ptLE) ∧
    (∀ off : Int, chartData off [] = []) := by
  refine ⟨fun off readings => List.sorted_insertionSort ptLE _, fun off => rfl⟩

/-- Witness for C7: the empty input maps to the empty output. -/
theorem chartData_sorted_and_empty_witness : chartData 0 [] = [] :=
  chartData_sorted_and_empty.2 0

/-- One day in milliseconds. -/
def DAY_MS : Int := 86400000

/-- Local midnight of the local day containing instant `t`, for a local
clock at UTC offset `off` milliseconds (`d.setHours(0, 0, 0, 0)`). -/
def localDayStart (off t : Int) : Int :=
  (t + off) - (t + off) % DAY_MS - off

/-- `toUtcIso` of `ExportCSVDialog.tsx` (lines 61-70): the start of the
given instant's local day, or — when `inclusiveEnd` — the last millisecond
of that day (`d.setHours(23, 59, 59, 999)`). -/
def toUtcIso (off : Int) (d : Int) (inclusiveEnd : Bool) : Int :=
  if inclusiveEnd then localDayStart off d + (DAY_MS - 1)
  else localDayStart off d

/-- Look up a device by id (the `devices!inner` join target). -/
def lookupDevice (devices : List Device) (i : String) : Option Device :=
  devices.find? (fun d => d.id == i)

/-- The export query's row predicate: `created_at` within the closed
interval and — through the inner join plus `eq("devices.name", zone)` —
the joined device's name equal to the selected zone. -/
def matchesExport (devices : List Device) (zone : String)
    (startMs endMs : Int) (r : Reading) : Bool :=
  decide (startMs ≤ r.created_at) && decide (r.created_at ≤ endMs) &&
    ((lookupDevice devices r.device_id).map Device.name == some zone)

/-- Order on readings by `created_at`, the query's
`order("created_at", ascending: true)`. -/
abbrev rdLE (a b : Reading) : Prop := a.created_at ≤ b.created_at

instance : DecidableRel rdLE :=
  fun a b => inferInstanceAs (Decidable (a.created_at ≤ b.created_at))

instance : IsTotal Reading rdLE :=
  ⟨fun a b => Int.le_total a.created_at b.created_at⟩

instance : IsTrans Reading rdLE :=
  ⟨fun _ _ _ h1 h2 => le_trans h1 h2⟩

/-- The rows returned by the export query of `ExportCSVDialog.tsx`
(lines 121-141): matching readings ordered ascending by `created_at`. -/
def exportRows (devices : List Device) (readings : List Reading)
    (zone : String) (startMs endMs : Int) : List Reading :=
  (readings.filter (matchesExport devices zone startMs endMs)).insertionSort
    rdLE

/-- The fixed column order `CSV_COLUMNS` of `ExportCSVDialog.tsx`. -/
def CSV_COLUMNS : List String :=
  ["date", "time", "esp_id", "name", "soil_1", "soil_2", "soil_3", "soil_4",
    "temp_1", "hum_1", "temp_2", "hum_2"]

/-- Rendering of an optional measurement: `r[k] ?? ""` — a number prints
itself, an absent value prints as the empty field. -/
def showOptQ : Option ℚ → String
  | none => ""
  | some q => toString q

/-- The CSV header row. -/
def csvHeader : String := String.intercalate "," CSV_COLUMNS

/-- One serialized CSV row (`ExportCSVDialog.tsx` lines 148-169): the
display date and time of `created_at` (rendered by the abstract formatter
`fmt`, standing for `formatKLDateTimeParts`), the joined device's
external id and name (empty when the join is missing), then the eight
measurement channels in the fixed order. -/
def csvRow (fmt : Int → String × String) (devices : List Device)
    (r : Reading) : String :=
  String.intercalate ","
    [(fmt r.created_at).1, (fmt r.created_at).2,
      ((lookupDevice devices r.device_id).map Device.esp_id).getD "",
      ((lookupDevice devices r.device_id).map Device.name).getD "",
      showOptQ r.soil_1, showOptQ r.soil_2, showOptQ r.soil_3,
      showOptQ r.soil_4, showOptQ r.temp_1, showOptQ r.hum_1,
      showOptQ r.temp_2, showOptQ r.hum_2]

/-- The lines of the exported CSV: the header row, then one row per query
result (the source joins them with a newline into the downloaded blob). -/
def csvLines (fmt : Int → String × String) (devices : List Device)
    (readings : List Reading) (zone : String) (off sDay eDay : Int) :
    List String :=
  csvHeader ::
    (exportRows devices readings zone (toUtcIso off sDay false)
      (toUtcIso off eDay true)).map (csvRow fmt devices)

/-- Membership in the export query's result. -/
theorem mem_exportRows (devices : List Device) (readings : List Reading)
    (zone : String) (startMs endMs : Int) (r : Reading) :
    r ∈ exportRows devices readings zone startMs endMs ↔
      r ∈ readings ∧ startMs ≤ r.created_at ∧ r.created_at ≤ endMs ∧
        (lookupDevice devices r.device_id).map Device.name = some zone := by
  rw [exportRows,
    (List.perm_insertionSort rdLE
      (readings.filter (matchesExport devices zone startMs endMs))).mem_iff,
    List.mem_filter]
  simp [matchesExport, and_assoc]

/-- C9: the CSV export consists of the fixed header row followed by
exactly the readings whose joined device name equals the zone filter and
whose `created_at` lies in the closed interval from the start of the start
date's day to the last millisecond of the end date's day, serialized in
ascending `created_at` order in the fixed column order, with absent
measurement values rendered as empty fields. -/
theorem csvExport_spec :
    (∀ (fmt : Int → String × String) (devices : List Device)
      (readings : List Reading) (zone : String) (off sDay eDay : Int),
      csvLines fmt devices readings zone off sDay eDay =
        csvHeader ::
          (exportRows devices readings zone (toUtcIso off sDay false)
            (toUtcIso off eDay true)).map (csvRow fmt devices) ∧
      toUtcIso off sDay false = localDayStart off sDay ∧
      toUtcIso off eDay true = localDayStart off eDay + (DAY_MS - 1) ∧
      (∀ r, r ∈ exportRows devices readings zone (toUtcIso off sDay false)
          (toUtcIso off eDay true) ↔
        r ∈ readings ∧ toUtcIso off sDay false ≤ r.created_at ∧
          r.created_at ≤ toUtcIso off eDay true ∧
          (lookupDevice devices r.device_id).map Device.name = some zone) ∧
      (exportRows devices readings zone (toUtcIso off sDay false)
        (toUtcIso off eDay true)).Sorted rdLE) ∧
    csvHeader =
      "date,time,esp_id,name,soil_1,soil_2,soil_3,soil_4,temp_1,hum_1,temp_2,hum_2" ∧
    showOptQ none = "" := by
  refine ⟨fun fmt devices readings zone off sDay eDay =>
    ⟨rfl, rfl, rfl, ?_, List.sorted_insertionSort rdLE _⟩, rfl, rfl⟩
  intro r
  exact mem_exportRows devices readings zone _ _ r

/-- Witness for C9: the header line of a concrete empty export. -/
theorem csvExport_spec_witness :
    csvLines (fun _ => ("", "")) [] [] "Zone 1" 0 0 0 = [csvHeader] :=
  (csvExport_spec.1 (fun _ => ("", "")) [] [] "Zone 1" 0 0 0).1
